import Mathlib

/-!
Verification of the GeoJSON corrector backend (`geojson_corrector.py`).

The Python module is shallowly embedded below: JSON values become an inductive
type, Python dicts become insertion-ordered association lists, exceptions
become `Except String`, and the external Shapely geometry engine (out of scope
per the specification, invoked only through a five-operation contract) becomes
a record of fallible operations over an abstract geometry type.
-/

set_option linter.unusedVariables false

namespace GeoJSONCorrector

/-- JSON values as handled by the Python module: `None`, `bool`, `int`,
`float` (modelled as an exact rational; this agrees with Python's binary64
value on every literal this development evaluates, all of which are exactly
representable), `str`, `list`, and insertion-ordered `dict` modelled as an
association list. -/
inductive JVal where
  | JNull
  | JBool (b : Bool)
  | JInt (n : Int)
  | JFloat (q : ℚ)
  | JStr (s : String)
  | JArr (xs : List JVal)
  | JObj (kvs : List (String × JVal))

/-- First-match lookup in an association list: Python `dict[k]` access on a
dict with unique keys. -/
def objGet? (kvs : List (String × JVal)) (k : String) : Option JVal :=
  match kvs with
  | [] => none
  | kv :: rest => if kv.1 = k then some kv.2 else objGet? rest k

/-- Python `dict.get(k)`: `None` when the key is absent. -/
def objGet (kvs : List (String × JVal)) (k : String) : JVal :=
  (objGet? kvs k).getD .JNull

/-- The characters Python `str.strip()` removes (ASCII fragment; the module's
inputs are JSON text and no claim involves non-ASCII whitespace). -/
def pyIsSpace (c : Char) : Bool :=
  c = ' ' || c = '\t' || c = '\n' || c = '\r' || c = '\x0b' || c = '\x0c'

/-- `str.strip()` on the character list: drop leading and trailing runs of
whitespace. -/
def stripList (l : List Char) : List Char :=
  ((l.dropWhile pyIsSpace).reverse.dropWhile pyIsSpace).reverse

/-- Python `str.strip()`. -/
def pyStrip (s : String) : String :=
  String.mk (stripList s.data)

/-- Python `str.lower()` (ASCII fragment). -/
def pyLower (s : String) : String :=
  String.mk (s.data.map Char.toLower)

/-- `\d+` over a character list (ASCII digits, the case `re` exercises here). -/
def isDigits (l : List Char) : Bool :=
  !l.isEmpty && l.all Char.isDigit

/-- The regex `^-?\d+$` from `_fix_numeric_string`. -/
def matchIntPat (s : String) : Bool :=
  match s.data with
  | '-' :: rest => isDigits rest
  | l => isDigits l

/-- The mantissa part `\d*\.?\d+` of the float regex: a maximal digit prefix,
then either nothing (and at least one digit seen) or a dot followed by a
nonempty digit run. -/
def mantissaPat (l : List Char) : Bool :=
  match l.dropWhile Char.isDigit with
  | [] => !l.isEmpty
  | '.' :: rest2 => isDigits rest2
  | _ => false

/-- The exponent body `[+-]?\d+` of the float regex. -/
def expPat (l : List Char) : Bool :=
  match l with
  | '+' :: rest => isDigits rest
  | '-' :: rest => isDigits rest
  | l => isDigits l

/-- True when `c` is not an exponent marker `e`/`E`. -/
def notExpMark (c : Char) : Bool :=
  !(c = 'e' || c = 'E')

/-- The regex `^-?\d*\.?\d+(?:[eE][+-]?\d+)?$` from `_fix_numeric_string`:
optional sign, mantissa, optional exponent introduced by the first `e`/`E`
(the mantissa and exponent bodies admit no `e`/`E` themselves, so splitting at
the first marker is exact). -/
def matchFloatPat (s : String) : Bool :=
  let l := match s.data with
    | '-' :: rest => rest
    | l => l
  match l.dropWhile notExpMark with
  | [] => mantissaPat (l.takeWhile notExpMark)
  | _ :: ex => mantissaPat (l.takeWhile notExpMark) && expPat ex

/-- The natural number denoted by a digit run. -/
def digitsToNat (l : List Char) : Nat :=
  l.foldl (fun n c => 10 * n + (c.toNat - '0'.toNat)) 0

/-- Python `int(s)` on a string matching `^-?\d+$`. -/
def pyInt (s : String) : Int :=
  match s.data with
  | '-' :: rest => -(digitsToNat rest : Int)
  | l => (digitsToNat l : Int)

/-- Python `float(s)` on a string matching the float regex, as the exact
rational value of the literal (integer-and-fraction digit run over a power of
ten, scaled by the exponent). Python rounds to binary64; the two agree on
every literal evaluated in this development (all exactly representable). -/
def pyFloatQ (s : String) : ℚ :=
  let signed := match s.data with
    | '-' :: rest => (true, rest)
    | l => (false, l)
  let l := signed.2
  let m := l.takeWhile notExpMark
  let ex : Int := match l.dropWhile notExpMark with
    | [] => 0
    | _ :: e =>
      match e with
      | '+' :: d => (digitsToNat d : Int)
      | '-' :: d => -(digitsToNat d : Int)
      | d => (digitsToNat d : Int)
  let ip := m.takeWhile Char.isDigit
  let fp := match m.dropWhile Char.isDigit with
    | '.' :: r => r
    | _ => []
  let mant : Int := (digitsToNat (ip ++ fp) : Int)
  let sgnMant : Int := if signed.1 then -mant else mant
  if 0 ≤ ex then mkRat (sgnMant * (10 : Int) ^ ex.toNat) ((10 : Nat) ^ fp.length)
  else mkRat sgnMant ((10 : Nat) ^ fp.length * (10 : Nat) ^ (-ex).toNat)

/-- Python type names, as they appear in `AttributeError` texts. -/
def pyTypeName : JVal → String
  | .JNull => "NoneType"
  | .JBool _ => "bool"
  | .JInt _ => "int"
  | .JFloat _ => "float"
  | .JStr _ => "str"
  | .JArr _ => "list"
  | .JObj _ => "dict"

/-- Python `str(v)` as used in f-string interpolation. Exact for `None`,
booleans, integers and strings (the only cases any claim evaluates);
schematic for floats and containers. -/
def pyStr : JVal → String
  | .JNull => "None"
  | .JBool true => "True"
  | .JBool false => "False"
  | .JInt n => toString n
  | .JFloat q => toString q
  | .JStr s => s
  | .JArr _ => "[...]"
  | .JObj _ => "\x7b...\x7d"

/-- A registered correction rule: a function from `(key, value)` to
`(corrected_value, was_corrected)`. -/
abbrev PropRule := String → JVal → JVal × Bool

/-- `PropertyCorrector._fix_numeric_string`: a string whose stripped form
matches the integer regex becomes an `int` (priority), else the float regex
makes it a `float`. -/
def fix_numeric_string (key : String) (value : JVal) : JVal × Bool :=
  match value with
  | .JStr s =>
    let stripped := pyStrip s
    if matchIntPat stripped then (.JInt (pyInt stripped), true)
    else if matchFloatPat stripped then (.JFloat (pyFloatQ stripped), true)
    else (value, false)
  | _ => (value, false)

/-- `PropertyCorrector._fix_null_string`: a string whose stripped, lowered
form is `null`, `none`, `nil` or empty becomes `None`. -/
def fix_null_string (key : String) (value : JVal) : JVal × Bool :=
  match value with
  | .JStr s =>
    if pyLower (pyStrip s) = "null" ∨ pyLower (pyStrip s) = "none" ∨
        pyLower (pyStrip s) = "nil" ∨ pyLower (pyStrip s) = "" then (.JNull, true)
    else (value, false)
  | _ => (value, false)

/-- `PropertyCorrector._fix_boolean_string`. -/
def fix_boolean_string (key : String) (value : JVal) : JVal × Bool :=
  match value with
  | .JStr s =>
    if pyLower (pyStrip s) = "true" then (.JBool true, true)
    else if pyLower (pyStrip s) = "false" then (.JBool false, true)
    else (value, false)
  | _ => (value, false)

/-- `PropertyCorrector._fix_whitespace`. -/
def fix_whitespace (key : String) (value : JVal) : JVal × Bool :=
  match value with
  | .JStr s => if pyStrip s ≠ s then (.JStr (pyStrip s), true) else (value, false)
  | _ => (value, false)

/-- The chain `_register_default_corrections` installs, in registration
order. -/
def defaultCorrections : List (String × PropRule) :=
  [("numeric_string", fix_numeric_string), ("null_string", fix_null_string),
   ("boolean_string", fix_boolean_string), ("whitespace", fix_whitespace)]

/-- The inner loop of `correct_properties`: run every rule of the chain over
one value, threading `current_value` (updated only when a rule reports a
change, exactly as the source assigns inside `if was_corrected`) and counting
the rule applications that report `was_corrected`. -/
def applyChain (chain : List (String × PropRule)) (key : String) (v : JVal) : JVal × Nat :=
  match chain with
  | [] => (v, 0)
  | c :: rest =>
    let r := c.2 key v
    let cur := if r.2 then r.1 else v
    let t := applyChain rest key cur
    (t.1, (if r.2 then 1 else 0) + t.2)

/-- The outer loop of `correct_properties`: visit each entry in dict order,
rebuild the dict in that order, and sum the fix counts. -/
def correctPropsLoop (chain : List (String × PropRule)) :
    List (String × JVal) → List (String × JVal) × Nat
  | [] => ([], 0)
  | kv :: rest =>
    let r := applyChain chain kv.1 kv.2
    let t := correctPropsLoop chain rest
    ((kv.1, r.1) :: t.1, r.2 + t.2)

/-- `PropertyCorrector.correct_properties`. `None` short-circuits to
`(None, 0)`; a dict is rewritten entrywise; any other value raises
`AttributeError` at `properties.items()` (surfaced as `.error`). -/
def correct_properties (chain : List (String × PropRule)) (properties : JVal) :
    Except String (JVal × Nat) :=
  match properties with
  | .JNull => .ok (.JNull, 0)
  | .JObj kvs =>
    let r := correctPropsLoop chain kvs
    .ok (.JObj r.1, r.2)
  | v => .error (pyTypeName v ++ " object has no attribute items")

/-- The five-operation contract of the external Shapely engine (spec section
6): `shape`, `is_valid`, `explain_validity`, `make_valid`, `mapping` over an
abstract engine-geometry type `G`. Each operation may raise, modelled as
`Except String`. The engine itself is an out-of-scope collaborator; every
theorem below quantifies over it. -/
structure Engine (G : Type) where
  shape : JVal → Except String G
  is_valid : G → Except String Bool
  explain_validity : G → Except String String
  make_valid : G → Except String G
  mapping : G → Except String JVal

/-- `GeometryCorrector.validate_geometry`: construct the engine geometry and
check validity; any exception becomes `(False, str(e))`. -/
def validate_geometry {G : Type} (E : Engine G) (geometry : JVal) : Bool × String :=
  match E.shape geometry with
  | .error e => (false, e)
  | .ok geom =>
    match E.is_valid geom with
    | .error e => (false, e)
    | .ok true => (true, "Valid")
    | .ok false =>
      match E.explain_validity geom with
      | .error e => (false, e)
      | .ok expl => (false, expl)

/-- `GeometryCorrector.correct_geometry`: already-valid geometries pass
through; invalid ones are repaired via `make_valid` and re-checked; any
exception anywhere in the attempt is caught and the original geometry
returned with `was_corrected = False`. Totality of this function is the
"never raises" guarantee. -/
def correct_geometry {G : Type} (E : Engine G) (geometry : JVal) : JVal × Bool × String :=
  match E.shape geometry with
  | .error e => (geometry, false, "Error processing geometry: " ++ e)
  | .ok geom =>
    match E.is_valid geom with
    | .error e => (geometry, false, "Error processing geometry: " ++ e)
    | .ok true => (geometry, false, "Geometry was already valid")
    | .ok false =>
      match E.explain_validity geom with
      | .error e => (geometry, false, "Error processing geometry: " ++ e)
      | .ok original_issue =>
        match E.make_valid geom with
        | .error e => (geometry, false, "Error processing geometry: " ++ e)
        | .ok corrected_geom =>
          match E.is_valid corrected_geom with
          | .error e => (geometry, false, "Error processing geometry: " ++ e)
          | .ok true =>
            match E.mapping corrected_geom with
            | .error e => (geometry, false, "Error processing geometry: " ++ e)
            | .ok m => (m, true, "Fixed: " ++ original_issue)
          | .ok false => (geometry, false, "Could not fix: " ++ original_issue)

/-- The per-feature detail dict `GeoJSONCorrector.correct_feature` builds. -/
structure FeatureDetail where
  feature_index : Nat
  geometry_corrected : Bool
  geometry_message : String
  properties_fixes : Nat

/-- `GeoJSONCorrector.correct_feature`: rebuild the feature with `type`,
`properties`, `geometry` first and every other input key after, in input
order; run the geometry through `correct_geometry` when it is not `None`, and
the properties through `correct_properties`. A non-dict feature raises at
`feature.get` and a non-dict, non-`None` properties value raises inside
`correct_properties`; both surface as `.error` (caught by the callers). -/
def correct_feature {G : Type} (E : Engine G) (chain : List (String × PropRule))
    (feature : JVal) (feature_index : Nat) : Except String (JVal × FeatureDetail) :=
  match feature with
  | .JObj kvs =>
    let props := objGet kvs "properties"
    let geom := objGet kvs "geometry"
    let g := match geom with
      | .JNull => (JVal.JNull, false, "")
      | g0 => correct_geometry E g0
    match correct_properties chain props with
    | .error e => .error e
    | .ok pr =>
      .ok (.JObj (("type", .JStr "Feature") :: ("properties", pr.1) :: ("geometry", g.1) ::
            kvs.filter (fun kv => kv.1 != "type" && kv.1 != "properties" && kv.1 != "geometry")),
          ⟨feature_index, g.2.1, g.2.2, pr.2⟩)
  | f => .error (pyTypeName f ++ " object has no attribute get")

/-- `CorrectionResult` from the source, with the same defaults. -/
structure CorrectionResult where
  original_feature_count : Nat := 0
  corrected_feature_count : Nat := 0
  geometry_issues_fixed : Nat := 0
  property_issues_fixed : Nat := 0
  errors : List String := []
  warnings : List String := []
  details : List FeatureDetail := []

/-- What one pass of the `for idx, feature in enumerate(features)` loop of
`_correct_feature_collection` accumulates. -/
structure LoopOut where
  feats : List JVal
  errs : List String
  dets : List FeatureDetail
  gfix : Nat
  pfix : Nat

/-- The per-feature loop of `_correct_feature_collection`, started at index
`idx`: success appends the corrected feature and its detail and rolls the
counters; failure appends `"Error processing feature {idx}: {e}"` and keeps
the original feature at that position. -/
def correctFeaturesFrom {G : Type} (E : Engine G) (chain : List (String × PropRule))
    (idx : Nat) : List JVal → LoopOut
  | [] => ⟨[], [], [], 0, 0⟩
  | f :: rest =>
    let t := correctFeaturesFrom E chain (idx + 1) rest
    match correct_feature E chain f idx with
    | .ok p =>
      ⟨p.1 :: t.feats, t.errs, p.2 :: t.dets,
       (if p.2.geometry_corrected then 1 else 0) + t.gfix, p.2.properties_fixes + t.pfix⟩
    | .error e =>
      ⟨f :: t.feats, ("Error processing feature " ++ toString idx ++ ": " ++ e) :: t.errs,
       t.dets, t.gfix, t.pfix⟩

/-- `GeoJSONCorrector._correct_feature_collection` on a document whose
`features` value is the list `fs`: output dict built with `type` and
`features` first and every other top-level input key after, in input order. -/
def correct_feature_collection {G : Type} (E : Engine G) (chain : List (String × PropRule))
    (kvs : List (String × JVal)) (fs : List JVal) : JVal × CorrectionResult :=
  let a := correctFeaturesFrom E chain 0 fs
  (.JObj (("type", .JStr "FeatureCollection") :: ("features", .JArr a.feats) ::
      kvs.filter (fun kv => kv.1 != "type" && kv.1 != "features")),
   { original_feature_count := fs.length
     corrected_feature_count := a.feats.length
     geometry_issues_fixed := a.gfix
     property_issues_fixed := a.pfix
     errors := a.errs
     warnings := []
     details := a.dets })

/-- `GeoJSONCorrector._correct_single_feature`: the error message carries no
feature index (`"Error processing feature: {e}"` in the source), and
`corrected_feature_count` is only set on success. -/
def correct_single_feature {G : Type} (E : Engine G) (chain : List (String × PropRule))
    (kvs : List (String × JVal)) : JVal × CorrectionResult :=
  match correct_feature E chain (.JObj kvs) 0 with
  | .ok p =>
    (p.1,
     { original_feature_count := 1
       corrected_feature_count := 1
       geometry_issues_fixed := if p.2.geometry_corrected then 1 else 0
       property_issues_fixed := p.2.properties_fixes
       details := [p.2] })
  | .error e =>
    (.JObj kvs, { original_feature_count := 1, errors := ["Error processing feature: " ++ e] })

/-- `GeoJSONCorrector._correct_bare_geometry`. Its `try` block only calls
`correct_geometry`, which never raises, so the `except` branch is dead and
the translation is total. -/
def correct_bare_geometry {G : Type} (E : Engine G)
    (kvs : List (String × JVal)) : JVal × CorrectionResult :=
  let r := correct_geometry E (.JObj kvs)
  (r.1,
   { original_feature_count := 1
     corrected_feature_count := 1
     geometry_issues_fixed := if r.2.1 then 1 else 0
     details := [⟨0, r.2.1, r.2.2, 0⟩] })

/-- The seven bare-geometry type names recognised by the dispatcher. -/
def geometryTypeNames : List String :=
  ["Point", "MultiPoint", "LineString", "MultiLineString",
   "Polygon", "MultiPolygon", "GeometryCollection"]

/-- The result built by the unknown-type branch of `correct_geojson`:
a single error interpolating the `type` value, everything else untouched. -/
def unknownTypeResult (tv : JVal) : CorrectionResult :=
  { errors := ["Unknown GeoJSON type: " ++ pyStr tv] }

/-- `GeoJSONCorrector.correct_geojson`, dispatching on `doc.get("type")`.
`none` marks the calls outside the modelled fragment: a non-dict document
(Python raises `AttributeError` at `.get`, uncaught) and a present non-list
`features` value (Python duck-types over it; no claim exercises this). -/
def correct_geojson {G : Type} (E : Engine G) (chain : List (String × PropRule))
    (doc : JVal) : Option (JVal × CorrectionResult) :=
  match doc with
  | .JObj kvs =>
    match objGet kvs "type" with
    | .JStr t =>
      if t = "FeatureCollection" then
        match objGet? kvs "features" with
        | some (.JArr fs) => some (correct_feature_collection E chain kvs fs)
        | none => some (correct_feature_collection E chain kvs [])
        | some _ => none
      else if t = "Feature" then some (correct_single_feature E chain kvs)
      else if t ∈ geometryTypeNames then some (correct_bare_geometry E kvs)
      else some (.JObj kvs, unknownTypeResult (.JStr t))
    | tv => some (.JObj kvs, unknownTypeResult tv)
  | _ => none

/-- The text a file-level call hands back: either the original raw content
(JSON parse failure) or the serialisation of the corrected document.
Serialising to indented JSON text is a primitive out of scope per the spec,
so the corrected document is kept as a value. -/
inductive FileOutput where
  | raw (text : String)
  | serialized (doc : JVal)

/-- `correct_geojson_file`. `parse` is the outcome of the `json.loads`
primitive on `content` (parsing is out of scope per the spec): a
`JSONDecodeError` yields the `"Invalid JSON: {e}"` error and the raw content
back; otherwise the parsed document goes through `correct_geojson`. -/
def correct_geojson_file {G : Type} (E : Engine G) (chain : List (String × PropRule))
    (content : String) (parse : Except String JVal) : Option (FileOutput × CorrectionResult) :=
  match parse with
  | .error e => some (.raw content, { errors := ["Invalid JSON: " ++ e] })
  | .ok doc =>
    match correct_geojson E chain doc with
    | some r => some (.serialized r.1, r.2)
    | none => none

/-- Python truthiness, as tested by `if geometry:` in
`validate_geojson_file`. -/
def jTruthy : JVal → Bool
  | .JNull => false
  | .JBool b => b
  | .JInt n => n != 0
  | .JFloat q => q != 0
  | .JStr s => s != ""
  | .JArr xs => !xs.isEmpty
  | .JObj kvs => !kvs.isEmpty

/-- A validation issue dict: `{"type": "json_error", "message": ...}` or
`{"type": "geometry_invalid", "feature_index": ..., "message": ...}`. -/
inductive Issue where
  | json_error (message : String)
  | geometry_invalid (feature_index : Nat) (message : String)

/-- The per-feature loop of the `FeatureCollection` branch of
`validate_geojson_file`: a truthy geometry is validated and an invalid one
emits an issue at the feature's index. A non-dict feature raises at
`feature.get` (`.error`, uncaught in the source). -/
def validateLoop {G : Type} (E : Engine G) (idx : Nat) :
    List JVal → Except String (List Issue)
  | [] => .ok []
  | f :: rest =>
    match f with
    | .JObj fkvs =>
      let g := objGet fkvs "geometry"
      let here :=
        if jTruthy g then
          let r := validate_geometry E g
          if r.1 then [] else [.geometry_invalid idx r.2]
        else []
      match validateLoop E (idx + 1) rest with
      | .ok tail => .ok (here ++ tail)
      | .error e => .error e
    | f => .error (pyTypeName f ++ " object has no attribute get")

/-- The post-parse body of `validate_geojson_file`, dispatching on the
document's `type`. An unrecognised type falls through with no issues. `none`
marks a present non-list `features` value (unmodelled duck-typing); a
non-dict document raises at `.get` (`.error`). -/
def validate_geojson {G : Type} (E : Engine G) (doc : JVal) :
    Option (Except String (List Issue)) :=
  match doc with
  | .JObj kvs =>
    match objGet kvs "type" with
    | .JStr t =>
      if t = "FeatureCollection" then
        match objGet? kvs "features" with
        | some (.JArr fs) => some (validateLoop E 0 fs)
        | none => some (.ok [])
        | some _ => none
      else if t = "Feature" then
        let g := objGet kvs "geometry"
        some (.ok
          (if jTruthy g then
            let r := validate_geometry E g
            if r.1 then [] else [.geometry_invalid 0 r.2]
          else []))
      else if t ∈ geometryTypeNames then
        let r := validate_geometry E (.JObj kvs)
        some (.ok (if r.1 then [] else [.geometry_invalid 0 r.2]))
      else some (.ok [])
    | _ => some (.ok [])
  | f => some (.error (pyTypeName f ++ " object has no attribute get"))

/-- `validate_geojson_file` with the `json.loads` outcome as `parse`: a parse
failure returns the single `json_error` issue. -/
def validate_geojson_file {G : Type} (E : Engine G) (parse : Except String JVal) :
    Option (Except String (List Issue)) :=
  match parse with
  | .error e => some (.ok [Issue.json_error e])
  | .ok doc => validate_geojson E doc

/-- The rule contract implicit in the spec's pipeline description: a rule
reporting `wasChanged = false` hands back the value it was given. Every rule
registered by the program satisfies it. -/
def RuleContract (chain : List (String × PropRule)) : Prop :=
  ∀ c ∈ chain, ∀ k v, (c.2 k v).2 = false → (c.2 k v).1 = v

/-- The spec's wording of the per-key chain: "apply every registered rule in
registration order, feeding each rule's output into the next rule as its
input", counting one fix per application reporting a change. Stated from the
spec sentence; compared against `applyChain` (translated from the source). -/
def specPipeline (chain : List (String × PropRule)) (key : String) (v : JVal) : JVal × Nat :=
  match chain with
  | [] => (v, 0)
  | c :: rest =>
    let r := c.2 key v
    let t := specPipeline rest key r.1
    (t.1, (if r.2 then 1 else 0) + t.2)

/-- The amended validation sentence for one feature: a truthy geometry whose
validation reports invalid emits exactly one `geometry_invalid` issue at the
feature's index; anything else emits none. Stated from the (amended) spec
sentence; compared against `validateLoop` (translated from the source). -/
def specFeatureIssue {G : Type} (E : Engine G) (idx : Nat)
    (fkvs : List (String × JVal)) : List Issue :=
  let g := objGet fkvs "geometry"
  if jTruthy g then
    if (validate_geometry E g).1 then [] else [.geometry_invalid idx (validate_geometry E g).2]
  else []

/-- The issues the amended validation sentence predicts for a feature
sequence starting at index `idx`, in feature order. -/
def specIssuesFrom {G : Type} (E : Engine G) (idx : Nat) :
    List (List (String × JVal)) → List Issue
  | [] => []
  | fkvs :: rest => specFeatureIssue E idx fkvs ++ specIssuesFrom E (idx + 1) rest

/-- A trivial engine whose geometries are all valid, used to evaluate the
document pipeline at concrete inputs. -/
def unitEngineValid : Engine Unit :=
  ⟨fun _ => .ok (), fun _ => .ok true, fun _ => .ok "Valid", fun _ => .ok (), fun _ => .ok .JNull⟩

/-- A trivial engine whose `shape` constructor always raises, exercising the
engine-construction failure paths at concrete inputs. -/
def unitEngineShapeFails : Engine Unit :=
  ⟨fun _ => .error "shape failed", fun _ => .ok true, fun _ => .ok "Valid",
   fun _ => .ok (), fun _ => .ok .JNull⟩

/-- A list whose head does not satisfy `p` is unchanged by `dropWhile p`. -/
theorem dropWhile_head_false {α : Type} (p : α → Bool) (l : List α)
    (h : ∀ a, l.head? = some a → p a = false) : l.dropWhile p = l := by
  cases l with
  | nil => rfl
  | cons x xs => simp [List.dropWhile_cons, h x rfl]

/-- `dropWhile` is idempotent. -/
theorem dropWhile_idem {α : Type} (p : α → Bool) (l : List α) :
    (l.dropWhile p).dropWhile p = l.dropWhile p := by
  apply dropWhile_head_false
  intro a ha
  have h := List.head?_dropWhile_not p l
  rw [ha] at h
  exact h

/-- `dropWhile` only removes a prefix, so a nonempty result keeps the last
element. -/
theorem getLast?_dropWhile {α : Type} (p : α → Bool) (l : List α)
    (h : l.dropWhile p ≠ []) : (l.dropWhile p).getLast? = l.getLast? := by
  induction l with
  | nil => simp at h
  | cons x xs ih =>
    rw [List.dropWhile_cons]
    by_cases hx : p x = true
    · rw [List.dropWhile_cons, if_pos hx] at h
      rw [if_pos hx]
      have hxs : xs ≠ [] := by
        intro e
        rw [e] at h
        simp at h
      obtain ⟨y, ys, rfl⟩ := List.exists_cons_of_ne_nil hxs
      rw [List.getLast?_cons_cons]
      exact ih h
    · rw [if_neg hx]

/-- Stripping both ends is idempotent. -/
theorem stripList_idem (l : List Char) : stripList (stripList l) = stripList l := by
  unfold stripList
  have hmhead : ∀ a, (l.dropWhile pyIsSpace).head? = some a → pyIsSpace a = false := by
    intro a ha
    have h := List.head?_dropWhile_not pyIsSpace l
    rw [ha] at h
    exact h
  have h1 : (((l.dropWhile pyIsSpace).reverse.dropWhile pyIsSpace).reverse).dropWhile pyIsSpace
      = ((l.dropWhile pyIsSpace).reverse.dropWhile pyIsSpace).reverse := by
    apply dropWhile_head_false
    intro a ha
    rw [List.head?_reverse] at ha
    by_cases hne : (l.dropWhile pyIsSpace).reverse.dropWhile pyIsSpace = []
    · rw [hne] at ha
      simp at ha
    · rw [getLast?_dropWhile _ _ hne, List.getLast?_reverse] at ha
      exact hmhead a ha
  rw [h1, List.reverse_reverse, dropWhile_idem]

/-- Python `strip` is idempotent. -/
theorem pyStrip_idem (s : String) : pyStrip (pyStrip s) = pyStrip s :=
  congrArg String.mk (stripList_idem s.data)

/-- One pass of the default chain over a string value, written out as the
first matching outcome: integer, float, null-like, boolean, trim. -/
theorem applyChain_default_str (k : String) (s : String) :
    applyChain defaultCorrections k (.JStr s) =
      if matchIntPat (pyStrip s) then (.JInt (pyInt (pyStrip s)), 1)
      else if matchFloatPat (pyStrip s) then (.JFloat (pyFloatQ (pyStrip s)), 1)
      else if pyLower (pyStrip s) = "null" ∨ pyLower (pyStrip s) = "none" ∨
          pyLower (pyStrip s) = "nil" ∨ pyLower (pyStrip s) = "" then (.JNull, 1)
      else if pyLower (pyStrip s) = "true" then (.JBool true, 1)
      else if pyLower (pyStrip s) = "false" then (.JBool false, 1)
      else if pyStrip s ≠ s then (.JStr (pyStrip s), 1) else (.JStr s, 0) := by
  by_cases h1 : matchIntPat (pyStrip s) = true
  · simp [defaultCorrections, applyChain, fix_numeric_string, fix_null_string,
      fix_boolean_string, fix_whitespace, h1]
  · by_cases h2 : matchFloatPat (pyStrip s) = true
    · simp [defaultCorrections, applyChain, fix_numeric_string, fix_null_string,
        fix_boolean_string, fix_whitespace, h1, h2]
    · by_cases h3 : pyLower (pyStrip s) = "null" ∨ pyLower (pyStrip s) = "none" ∨
          pyLower (pyStrip s) = "nil" ∨ pyLower (pyStrip s) = ""
      · simp [defaultCorrections, applyChain, fix_numeric_string, fix_null_string,
          fix_boolean_string, fix_whitespace, h1, h2, h3]
      · by_cases h4 : pyLower (pyStrip s) = "true"
        · simp [defaultCorrections, applyChain, fix_numeric_string, fix_null_string,
            fix_boolean_string, fix_whitespace, h1, h2, h3, h4]
        · by_cases h5 : pyLower (pyStrip s) = "false"
          · simp [defaultCorrections, applyChain, fix_numeric_string, fix_null_string,
              fix_boolean_string, fix_whitespace, h1, h2, h3, h4, h5]
          · by_cases h6 : pyStrip s = s
            · rw [h6] at h1 h2 h3 h4 h5
              simp [defaultCorrections, applyChain, fix_numeric_string, fix_null_string,
                fix_boolean_string, fix_whitespace, h1, h2, h3, h4, h5, h6]
            · simp [defaultCorrections, applyChain, fix_numeric_string, fix_null_string,
                fix_boolean_string, fix_whitespace, h1, h2, h3, h4, h5, h6]

/-- A value the default chain has already corrected is a fixed point of the
chain: a second pass reports zero fixes. -/
theorem applyChain_default_idem (k : String) (v : JVal) :
    applyChain defaultCorrections k (applyChain defaultCorrections k v).1 =
      ((applyChain defaultCorrections k v).1, 0) := by
  cases v with
  | JNull => rfl
  | JBool b => rfl
  | JInt n => rfl
  | JFloat q => rfl
  | JArr xs => rfl
  | JObj kvs => rfl
  | JStr s =>
    rw [applyChain_default_str]
    by_cases h1 : matchIntPat (pyStrip s) = true
    · rw [if_pos h1]; rfl
    · rw [if_neg h1]
      by_cases h2 : matchFloatPat (pyStrip s) = true
      · rw [if_pos h2]; rfl
      · rw [if_neg h2]
        by_cases h3 : pyLower (pyStrip s) = "null" ∨ pyLower (pyStrip s) = "none" ∨
            pyLower (pyStrip s) = "nil" ∨ pyLower (pyStrip s) = ""
        · rw [if_pos h3]; rfl
        · rw [if_neg h3]
          by_cases h4 : pyLower (pyStrip s) = "true"
          · rw [if_pos h4]; rfl
          · rw [if_neg h4]
            by_cases h5 : pyLower (pyStrip s) = "false"
            · rw [if_pos h5]; rfl
            · rw [if_neg h5]
              by_cases h6 : pyStrip s ≠ s
              · rw [if_pos h6, applyChain_default_str, pyStrip_idem,
                  if_neg h1, if_neg h2, if_neg h3, if_neg h4, if_neg h5,
                  if_neg (fun h => h rfl)]
              · rw [if_neg h6, applyChain_default_str,
                  if_neg h1, if_neg h2, if_neg h3, if_neg h4, if_neg h5, if_neg h6]

/-- Rerunning the properties loop on its own output changes nothing and
counts no fixes. -/
theorem correctPropsLoop_default_idem (kvs : List (String × JVal)) :
    correctPropsLoop defaultCorrections (correctPropsLoop defaultCorrections kvs).1 =
      ((correctPropsLoop defaultCorrections kvs).1, 0) := by
  induction kvs with
  | nil => rfl
  | cons kv rest ih =>
    simp only [correctPropsLoop, applyChain_default_idem, ih]

/-- The numeric-string rule hands back its input when it reports no change. -/
theorem fix_numeric_string_contract (k : String) (v : JVal)
    (h : (fix_numeric_string k v).2 = false) : (fix_numeric_string k v).1 = v := by
  cases v <;> simp_all [fix_numeric_string]
  split_ifs at h ⊢
  simp_all

/-- The null-string rule hands back its input when it reports no change. -/
theorem fix_null_string_contract (k : String) (v : JVal)
    (h : (fix_null_string k v).2 = false) : (fix_null_string k v).1 = v := by
  cases v <;> simp_all [fix_null_string]
  split_ifs at h ⊢
  simp_all

/-- The boolean-string rule hands back its input when it reports no change. -/
theorem fix_boolean_string_contract (k : String) (v : JVal)
    (h : (fix_boolean_string k v).2 = false) : (fix_boolean_string k v).1 = v := by
  cases v <;> simp_all [fix_boolean_string]
  split_ifs at h ⊢
  simp_all

/-- The whitespace rule hands back its input when it reports no change. -/
theorem fix_whitespace_contract (k : String) (v : JVal)
    (h : (fix_whitespace k v).2 = false) : (fix_whitespace k v).1 = v := by
  cases v <;> simp_all [fix_whitespace]
  split_ifs at h ⊢
  simp_all

/-- Every rule the program registers satisfies the rule contract. -/
theorem default_rules_contract : RuleContract defaultCorrections := by
  intro c hc k v
  simp only [defaultCorrections, List.mem_cons, List.not_mem_nil, or_false] at hc
  rcases hc with rfl | rfl | rfl | rfl
  · exact fix_numeric_string_contract k v
  · exact fix_null_string_contract k v
  · exact fix_boolean_string_contract k v
  · exact fix_whitespace_contract k v

/-- Under the rule contract, the source's inner loop (which threads the old
value past a rule reporting no change) agrees with the spec's pipeline
(which feeds every rule's output onward). -/
theorem applyChain_eq_specPipeline (chain : List (String × PropRule))
    (h : RuleContract chain) (k : String) (v : JVal) :
    applyChain chain k v = specPipeline chain k v := by
  induction chain generalizing v with
  | nil => rfl
  | cons c rest ih =>
    have hc := h c (List.mem_cons_self c rest)
    have hrest : RuleContract rest := fun c' hc' => h c' (List.mem_cons_of_mem c hc')
    simp only [applyChain, specPipeline]
    by_cases hch : (c.2 k v).2 = true
    · rw [if_pos hch, ih hrest]
    · rw [if_neg hch, hc k v (Bool.not_eq_true _ ▸ hch), ih hrest]

/-- Under the rule contract the whole properties loop is the keywise spec
pipeline with the per-key counts summed. -/
theorem correctPropsLoop_spec (chain : List (String × PropRule)) (h : RuleContract chain)
    (kvs : List (String × JVal)) :
    correctPropsLoop chain kvs =
      (kvs.map fun kv => (kv.1, (specPipeline chain kv.1 kv.2).1),
       (kvs.map fun kv => (specPipeline chain kv.1 kv.2).2).sum) := by
  induction kvs with
  | nil => rfl
  | cons kv rest ih =>
    simp only [correctPropsLoop, applyChain_eq_specPipeline chain h, ih,
      List.map_cons, List.sum_cons]

/-- C2: `correct_properties` visits the keys in dict order and keeps that
order in the output, runs every registered rule in registration order as a
pipeline over each value, counts one fix per rule application that reports a
change (several rules firing on one key each count), and maps a null
properties value to `(null, 0)` rather than an empty dict. Stated for every
chain honouring the rule contract (a rule reporting no change returns its
input), which every registered rule does. -/
theorem c2_properties_pipeline (chain : List (String × PropRule))
    (h : RuleContract chain) :
    correct_properties chain .JNull = .ok (.JNull, 0) ∧
    ∀ kvs : List (String × JVal),
      correct_properties chain (.JObj kvs) =
        .ok (.JObj (kvs.map fun kv => (kv.1, (specPipeline chain kv.1 kv.2).1)),
             (kvs.map fun kv => (specPipeline chain kv.1 kv.2).2).sum) := by
  refine ⟨rfl, fun kvs => ?_⟩
  simp only [correct_properties, correctPropsLoop_spec chain h]

/-- Witness for C2 at the default chain on a concrete two-key map. -/
theorem c2_properties_pipeline_witness :
    correct_properties defaultCorrections (.JObj [("a", .JStr "5"), ("b", .JStr " x ")]) =
      .ok (.JObj [("a", (specPipeline defaultCorrections "a" (.JStr "5")).1),
                  ("b", (specPipeline defaultCorrections "b" (.JStr " x ")).1)],
           (specPipeline defaultCorrections "a" (.JStr "5")).2 +
             ((specPipeline defaultCorrections "b" (.JStr " x ")).2 + 0)) :=
  (c2_properties_pipeline defaultCorrections default_rules_contract).2
    [("a", .JStr "5"), ("b", .JStr " x ")]

/-- C5: property correction is idempotent on its own output — a second run
over the corrected map returns it unchanged with zero fixes — and idempotence
holds trivially on a null properties value too. -/
theorem c5_properties_idempotent (kvs kvs' : List (String × JVal)) (n : Nat)
    (h : correct_properties defaultCorrections (.JObj kvs) = .ok (.JObj kvs', n)) :
    correct_properties defaultCorrections (.JObj kvs') = .ok (.JObj kvs', 0) ∧
    correct_properties defaultCorrections .JNull = .ok (.JNull, 0) := by
  refine ⟨?_, rfl⟩
  simp only [correct_properties, Except.ok.injEq, Prod.mk.injEq, JVal.JObj.injEq] at h
  obtain ⟨h1, h2⟩ := h
  subst h1
  simp only [correct_properties, correctPropsLoop_default_idem]

/-- Witness for C5 at the spec's own example: `{"a": "5"}` corrects to
`{"a": 5}` with one fix, and rerunning yields zero fixes. -/
theorem c5_properties_idempotent_witness :
    correct_properties defaultCorrections (.JObj [("a", .JInt 5)]) =
      .ok (.JObj [("a", .JInt 5)], 0) ∧
    correct_properties defaultCorrections .JNull = .ok (.JNull, 0) :=
  c5_properties_idempotent [("a", .JStr "5")] [("a", .JInt 5)] 1 rfl

/-- C6: the integer pattern outranks the float pattern — `"42"` becomes the
integer `42`, `"42.5"` the float `42.5`, `"1e3"` the float `1000.0` — and
each conversion counts as exactly one fix. -/
theorem c6_numeric_priority :
    correct_properties defaultCorrections (.JObj [("k", .JStr "42")]) =
      .ok (.JObj [("k", .JInt 42)], 1) ∧
    correct_properties defaultCorrections (.JObj [("k", .JStr "42.5")]) =
      .ok (.JObj [("k", .JFloat ((85 : ℚ) / 2))], 1) ∧
    correct_properties defaultCorrections (.JObj [("k", .JStr "1e3")]) =
      .ok (.JObj [("k", .JFloat 1000)], 1) := by
  refine ⟨rfl, ?_, rfl⟩
  have h : ((85 : ℚ) / 2) = mkRat 85 2 := by
    rw [Rat.mkRat_eq_div]
    norm_num
  rw [h]
  rfl


/-- C4: `correct_geometry` never raises (it is a total function); when the
engine reports the geometry already valid it returns the input unchanged with
`was_corrected = false` and message "Geometry was already valid"; when the
repair is still invalid it returns the original geometry with a "Could not
fix" message; and an exception at any engine call (construction included) is
caught and surfaced as `was_corrected = false` with an error message and the
original geometry untouched. Whenever `was_corrected = false`, the returned
geometry is the input itself. -/
theorem c4_correct_geometry_never_raises {G : Type} (E : Engine G) (g : JVal) :
    ((correct_geometry E g).2.1 = false → (correct_geometry E g).1 = g) ∧
    (∀ gm, E.shape g = .ok gm → E.is_valid gm = .ok true →
      correct_geometry E g = (g, false, "Geometry was already valid")) ∧
    (∀ gm expl rep, E.shape g = .ok gm → E.is_valid gm = .ok false →
      E.explain_validity gm = .ok expl → E.make_valid gm = .ok rep →
      E.is_valid rep = .ok false →
      correct_geometry E g = (g, false, "Could not fix: " ++ expl)) ∧
    (∀ e, E.shape g = .error e →
      correct_geometry E g = (g, false, "Error processing geometry: " ++ e)) ∧
    (∀ gm e, E.shape g = .ok gm → E.is_valid gm = .error e →
      correct_geometry E g = (g, false, "Error processing geometry: " ++ e)) ∧
    (∀ gm e, E.shape g = .ok gm → E.is_valid gm = .ok false →
      E.explain_validity gm = .error e →
      correct_geometry E g = (g, false, "Error processing geometry: " ++ e)) ∧
    (∀ gm expl e, E.shape g = .ok gm → E.is_valid gm = .ok false →
      E.explain_validity gm = .ok expl → E.make_valid gm = .error e →
      correct_geometry E g = (g, false, "Error processing geometry: " ++ e)) ∧
    (∀ gm expl rep e, E.shape g = .ok gm → E.is_valid gm = .ok false →
      E.explain_validity gm = .ok expl → E.make_valid gm = .ok rep →
      E.is_valid rep = .ok true → E.mapping rep = .error e →
      correct_geometry E g = (g, false, "Error processing geometry: " ++ e)) := by
  refine ⟨?_, ?_, ?_, ?_, ?_, ?_, ?_, ?_⟩
  · unfold correct_geometry
    cases hs : E.shape g with
    | error e => simp [*]
    | ok gm =>
      cases hv : E.is_valid gm with
      | error e => simp [*]
      | ok b =>
        cases b with
        | true => simp [*]
        | false =>
          cases hx : E.explain_validity gm with
          | error e => simp [*]
          | ok expl =>
            cases hm : E.make_valid gm with
            | error e => simp [*]
            | ok rep =>
              cases hv2 : E.is_valid rep with
              | error e => simp [*]
              | ok b2 =>
                cases b2 with
                | false => simp [*]
                | true =>
                  cases hmap : E.mapping rep with
                  | error e => simp [*]
                  | ok m => simp [*]
  · intro gm hs hv
    simp [correct_geometry, hs, hv]
  · intro gm expl rep hs hv hx hm hv2
    simp [correct_geometry, hs, hv, hx, hm, hv2]
  · intro e hs
    simp [correct_geometry, hs]
  · intro gm e hs hv
    simp [correct_geometry, hs, hv]
  · intro gm e hs hv hx
    simp [correct_geometry, hs, hv, hx]
  · intro gm expl e hs hv hx hm
    simp [correct_geometry, hs, hv, hx, hm]
  · intro gm expl rep e hs hv hx hm hv2 hmap
    simp [correct_geometry, hs, hv, hx, hm, hv2, hmap]

/-- Witness for C4: the already-valid branch evaluated on a trivial engine. -/
theorem c4_correct_geometry_never_raises_witness :
    correct_geometry unitEngineValid (.JObj [("type", .JStr "Point")]) =
      (.JObj [("type", .JStr "Point")], false, "Geometry was already valid") :=
  (c4_correct_geometry_never_raises unitEngineValid (.JObj [("type", .JStr "Point")])).2.1
    () rfl rfl

/-- C8: a dict document whose `type` value is none of `FeatureCollection`,
`Feature` or the seven geometry type names (in particular any non-string
`type`) comes back completely unmodified together with exactly one error
"Unknown GeoJSON type: {type}", every counter still zero. -/
theorem c8_unknown_type {G : Type} (E : Engine G) (chain : List (String × PropRule))
    (kvs : List (String × JVal))
    (h : ∀ s : String, objGet kvs "type" = .JStr s →
      s ≠ "FeatureCollection" ∧ s ≠ "Feature" ∧ s ∉ geometryTypeNames) :
    correct_geojson E chain (.JObj kvs) =
      some (.JObj kvs,
        { errors := ["Unknown GeoJSON type: " ++ pyStr (objGet kvs "type")] }) := by
  cases ht : objGet kvs "type"
  case JStr t =>
    obtain ⟨n1, n2, n3⟩ := h t ht
    simp [correct_geojson, ht, unknownTypeResult, n1, n2, n3]
  all_goals simp [correct_geojson, ht, unknownTypeResult]

/-- Witness for C8 at the spec scenario `{"type": "Widget"}`. -/
theorem c8_unknown_type_witness :
    correct_geojson unitEngineValid defaultCorrections (.JObj [("type", .JStr "Widget")]) =
      some (.JObj [("type", .JStr "Widget")],
        { errors := ["Unknown GeoJSON type: Widget"] }) :=
  c8_unknown_type unitEngineValid defaultCorrections [("type", .JStr "Widget")]
    (by
      intro s hs
      have hs' : JVal.JStr "Widget" = JVal.JStr s := hs
      injection hs' with he
      subst he
      refine ⟨by decide, by decide, by decide⟩)


set_option maxRecDepth 8192 in
/-- C7 counterexample: on a Feature document whose properties value makes
`correct_feature` raise, the appended error is
"Error processing feature: {cause}" - it does not carry feature index 0, so
the claimed format "Error processing feature 0: {cause}" does not occur (no
error message even starts with that prefix). -/
theorem c7_single_feature_error_counterexample :
    correct_geojson unitEngineValid defaultCorrections
        (.JObj [("type", .JStr "Feature"), ("properties", .JStr "x")]) =
      some (.JObj [("type", .JStr "Feature"), ("properties", .JStr "x")],
        { original_feature_count := 1,
          errors := ["Error processing feature: str object has no attribute items"] }) ∧
    ("Error processing feature: str object has no attribute items").take 26 ≠
      "Error processing feature 0" :=
  ⟨by rfl, by decide⟩

/-- C7 amended: a Feature document is treated as a one-feature batch with
`original_feature_count = 1` under the same failure boundary, but the error
appended when correcting the feature raises reads
"Error processing feature: {cause}" with no index, and the original document
is returned unmodified. -/
theorem c7_single_feature_error_amended {G : Type} (E : Engine G) (chain : List (String × PropRule))
    (kvs : List (String × JVal)) (ht : objGet kvs "type" = .JStr "Feature") :
    correct_geojson E chain (.JObj kvs) = some (correct_single_feature E chain kvs) ∧
    (correct_single_feature E chain kvs).2.original_feature_count = 1 ∧
    ∀ e, correct_feature E chain (.JObj kvs) 0 = .error e →
      correct_single_feature E chain kvs =
        (.JObj kvs, { original_feature_count := 1,
                      errors := ["Error processing feature: " ++ e] }) := by
  refine ⟨?_, ?_, ?_⟩
  · simp [correct_geojson, ht]
  · unfold correct_single_feature
    cases hcf : correct_feature E chain (.JObj kvs) 0 with
    | ok p => rfl
    | error e => rfl
  · intro e he
    simp [correct_single_feature, he]

/-- Witness for C7 amended at a Feature whose properties value is a list. -/
theorem c7_single_feature_error_amended_witness :
    correct_geojson unitEngineValid defaultCorrections
        (.JObj [("type", .JStr "Feature"), ("properties", .JArr [])]) =
      some (correct_single_feature unitEngineValid defaultCorrections
        [("type", .JStr "Feature"), ("properties", .JArr [])]) ∧
    (correct_single_feature unitEngineValid defaultCorrections
        [("type", .JStr "Feature"), ("properties", .JArr [])]).2.original_feature_count = 1 ∧
    correct_single_feature unitEngineValid defaultCorrections
        [("type", .JStr "Feature"), ("properties", .JArr [])] =
      (.JObj [("type", .JStr "Feature"), ("properties", .JArr [])],
       { original_feature_count := 1,
         errors := ["Error processing feature: list object has no attribute items"] }) := by
  have h := c7_single_feature_error_amended unitEngineValid defaultCorrections
    [("type", .JStr "Feature"), ("properties", .JArr [])] rfl
  exact ⟨h.1, h.2.1, h.2.2 "list object has no attribute items" rfl⟩

/-- A single-feature result never carries warnings, on either branch. -/
theorem warnings_correct_single_feature {G : Type} (E : Engine G)
    (chain : List (String × PropRule)) (kvs : List (String × JVal)) :
    (correct_single_feature E chain kvs).2.warnings = [] := by
  unfold correct_single_feature
  cases correct_feature E chain (.JObj kvs) 0 <;> rfl

/-- C10: no operation in the pipeline ever appends a warning - every result
`correct_geojson` or `correct_geojson_file` returns carries an empty
warnings list. -/
theorem c10_warnings_empty {G : Type} (E : Engine G) (chain : List (String × PropRule)) :
    (∀ doc r, correct_geojson E chain doc = some r → r.2.warnings = []) ∧
    (∀ content parse r, correct_geojson_file E chain content parse = some r →
      r.2.warnings = []) := by
  have main : ∀ doc r, correct_geojson E chain doc = some r → r.2.warnings = [] := by
    intro doc r h
    cases doc <;> simp only [correct_geojson] at h
    case JObj kvs =>
      split at h
      · split at h
        · split at h
          · injection h with h'
            subst h'
            rfl
          · injection h with h'
            subst h'
            rfl
          · exact absurd h (by simp)
        · split at h
          · injection h with h'
            subst h'
            exact warnings_correct_single_feature E chain kvs
          · split at h
            · injection h with h'
              subst h'
              rfl
            · injection h with h'
              subst h'
              rfl
      · injection h with h'
        subst h'
        rfl
    all_goals exact absurd h (by simp)
  refine ⟨main, ?_⟩
  intro content parse r h
  cases parse with
  | error e =>
    injection h with h'
    subst h'
    rfl
  | ok doc =>
    simp only [correct_geojson_file] at h
    revert h
    cases hcg : correct_geojson E chain doc <;> intro h
    case none => exact absurd h (by simp)
    case some p =>
      injection h with h'
      subst h'
      exact main doc p hcg

/-- Witness for C10 on the unknown-type path. -/
theorem c10_warnings_empty_witness :
    (unknownTypeResult (.JStr "Widget")).warnings = ([] : List String) :=
  (c10_warnings_empty unitEngineValid defaultCorrections).1
    (.JObj [("type", .JStr "Widget")])
    (.JObj [("type", .JStr "Widget")], unknownTypeResult (.JStr "Widget")) rfl



/-- A successful feature correction stamps its detail with the index it was
given. -/
theorem correct_feature_index {G : Type} (E : Engine G) (chain : List (String × PropRule))
    (f : JVal) (i : Nat) (p : JVal × FeatureDetail)
    (h : correct_feature E chain f i = .ok p) : p.2.feature_index = i := by
  unfold correct_feature at h
  split at h
  · dsimp only at h
    split at h
    · exact absurd h (by simp)
    · injection h with h'
      rw [← h']
  · exact absurd h (by simp)

/-- The loop emits exactly one output feature per input feature. -/
theorem correctFeaturesFrom_length {G : Type} (E : Engine G)
    (chain : List (String × PropRule)) :
    ∀ (fs : List JVal) (i : Nat), (correctFeaturesFrom E chain i fs).feats.length = fs.length := by
  intro fs
  induction fs with
  | nil => intro i; rfl
  | cons f rest ih =>
    intro i
    simp only [correctFeaturesFrom]
    cases hcf : correct_feature E chain f i with
    | ok p => simp [ih]
    | error e => simp [ih]

/-- Position `j` of the loop output is the corrected feature when correction
succeeded there and the original feature when it raised. -/
theorem correctFeaturesFrom_get {G : Type} (E : Engine G)
    (chain : List (String × PropRule)) :
    ∀ (fs : List JVal) (i j : Nat) (hj : j < fs.length),
      (correctFeaturesFrom E chain i fs).feats[j]? =
        some (match correct_feature E chain (fs.get ⟨j, hj⟩) (i + j) with
          | .ok p => p.1
          | .error _ => fs.get ⟨j, hj⟩) := by
  intro fs
  induction fs with
  | nil => intro i j hj; exact absurd hj (by simp)
  | cons f rest ih =>
    intro i j hj
    simp only [correctFeaturesFrom]
    cases hcf : correct_feature E chain f i with
    | ok p =>
      cases j with
      | zero => simp [hcf]
      | succ j' =>
        have hj' : j' < rest.length := Nat.lt_of_succ_lt_succ hj
        have := ih (i + 1) j' hj'
        simp only [List.getElem?_cons_succ, List.get_eq_getElem, List.getElem_cons_succ,
          Nat.add_succ, Nat.succ_add] at this ⊢
        exact this
    | error e =>
      cases j with
      | zero => simp [hcf]
      | succ j' =>
        have hj' : j' < rest.length := Nat.lt_of_succ_lt_succ hj
        have := ih (i + 1) j' hj'
        simp only [List.getElem?_cons_succ, List.get_eq_getElem, List.getElem_cons_succ,
          Nat.add_succ, Nat.succ_add] at this ⊢
        exact this

/-- When correction raises at position `j`, the loop records the indexed
error message. -/
theorem correctFeaturesFrom_error_mem {G : Type} (E : Engine G)
    (chain : List (String × PropRule)) :
    ∀ (fs : List JVal) (i j : Nat) (hj : j < fs.length) (e : String),
      correct_feature E chain (fs.get ⟨j, hj⟩) (i + j) = .error e →
      ("Error processing feature " ++ toString (i + j) ++ ": " ++ e) ∈
        (correctFeaturesFrom E chain i fs).errs := by
  intro fs
  induction fs with
  | nil => intro i j hj; exact absurd hj (by simp)
  | cons f rest ih =>
    intro i j hj e he
    simp only [correctFeaturesFrom]
    cases j with
    | zero =>
      rw [Nat.add_zero] at he ⊢
      simp only [List.get_eq_getElem, List.getElem_cons_zero] at he
      rw [he]
      exact List.mem_cons_self _ _
    | succ j' =>
      have hj' : j' < rest.length := Nat.lt_of_succ_lt_succ hj
      have hrec := ih (i + 1) j' hj' e
      simp only [List.get_eq_getElem, List.getElem_cons_succ, Nat.add_succ, Nat.succ_add]
        at he hrec ⊢
      cases hcf : correct_feature E chain f i with
      | ok p => exact hrec he
      | error e2 => exact List.mem_cons_of_mem _ (hrec he)

/-- Every recorded detail comes from a successful correction at its own
index; a feature whose correction raised therefore has no detail. -/
theorem correctFeaturesFrom_details {G : Type} (E : Engine G)
    (chain : List (String × PropRule)) :
    ∀ (fs : List JVal) (i : Nat) (d : FeatureDetail),
      d ∈ (correctFeaturesFrom E chain i fs).dets →
      ∃ j, ∃ hj : j < fs.length, d.feature_index = i + j ∧
        ∃ cf, correct_feature E chain (fs.get ⟨j, hj⟩) (i + j) = .ok (cf, d) := by
  intro fs
  induction fs with
  | nil => intro i d hd; exact absurd hd (by simp [correctFeaturesFrom])
  | cons f rest ih =>
    intro i d hd
    simp only [correctFeaturesFrom] at hd
    revert hd
    cases hcf : correct_feature E chain f i with
    | ok p =>
      intro hd
      simp only [List.mem_cons] at hd
      rcases hd with rfl | hd
      · refine ⟨0, by simp, ?_, p.1, ?_⟩
        · rw [correct_feature_index E chain f i p hcf]
          omega
        · exact hcf
      · obtain ⟨j, hj, hidx, cf, hok⟩ := ih (i + 1) d hd
        refine ⟨j + 1, Nat.succ_lt_succ hj, ?_, cf, ?_⟩
        · rw [hidx]
          omega
        · have harith : i + (j + 1) = (i + 1) + j := by omega
          rw [harith]
          exact hok
    | error e =>
      intro hd
      obtain ⟨j, hj, hidx, cf, hok⟩ := ih (i + 1) d hd
      refine ⟨j + 1, Nat.succ_lt_succ hj, ?_, cf, ?_⟩
      · rw [hidx]
        omega
      · have harith : i + (j + 1) = (i + 1) + j := by omega
        rw [harith]
        exact hok


/-- C1: on a FeatureCollection with features list `fs` (N entries) the
dispatcher runs the per-feature loop; the result reports
`original_feature_count = corrected_feature_count = N`, the output features
list has length N, position `j` holds the corrected feature on success and
the untouched original on failure, a failure at `j` appends the error
"Error processing feature {j}: {cause}", and no detail record exists for a
failed feature — no failure aborts or reorders the batch. -/
theorem c1_feature_collection_isolation {G : Type} (E : Engine G)
    (chain : List (String × PropRule)) (kvs : List (String × JVal)) (fs : List JVal)
    (ht : objGet kvs "type" = .JStr "FeatureCollection")
    (hf : objGet? kvs "features" = some (.JArr fs)) :
    correct_geojson E chain (.JObj kvs) = some (correct_feature_collection E chain kvs fs) ∧
    (correct_feature_collection E chain kvs fs).2.original_feature_count = fs.length ∧
    (correct_feature_collection E chain kvs fs).2.corrected_feature_count = fs.length ∧
    (correctFeaturesFrom E chain 0 fs).feats.length = fs.length ∧
    (∀ j (hj : j < fs.length) cf d,
      correct_feature E chain (fs.get ⟨j, hj⟩) j = .ok (cf, d) →
      (correctFeaturesFrom E chain 0 fs).feats[j]? = some cf) ∧
    (∀ j (hj : j < fs.length) e,
      correct_feature E chain (fs.get ⟨j, hj⟩) j = .error e →
      (correctFeaturesFrom E chain 0 fs).feats[j]? = some (fs.get ⟨j, hj⟩) ∧
      ("Error processing feature " ++ toString j ++ ": " ++ e) ∈
        (correct_feature_collection E chain kvs fs).2.errors ∧
      ∀ d ∈ (correct_feature_collection E chain kvs fs).2.details, d.feature_index ≠ j) := by
  refine ⟨?_, rfl, ?_, correctFeaturesFrom_length E chain fs 0, ?_, ?_⟩
  · simp [correct_geojson, ht, hf]
  · exact correctFeaturesFrom_length E chain fs 0
  · intro j hj cf d hok
    have h := correctFeaturesFrom_get E chain fs 0 j hj
    rw [Nat.zero_add] at h
    rw [h, hok]
  · intro j hj e he
    refine ⟨?_, ?_, ?_⟩
    · have h := correctFeaturesFrom_get E chain fs 0 j hj
      rw [Nat.zero_add] at h
      rw [h, he]
    · have h := correctFeaturesFrom_error_mem E chain fs 0 j hj e
      rw [Nat.zero_add] at h
      exact h he
    · intro d hd hidx
      obtain ⟨j', hj', hidx', cf, hok⟩ := correctFeaturesFrom_details E chain fs 0 d hd
      rw [Nat.zero_add] at hidx' hok
      rw [hidx'] at hidx
      subst hidx
      rw [he] at hok
      exact Except.noConfusion hok

/-- Witness for C1: a two-feature collection whose second feature is an
integer and raises; the first corrects, the batch keeps both. -/
theorem c1_feature_collection_isolation_witness :
    correct_geojson unitEngineValid defaultCorrections
        (.JObj [("type", .JStr "FeatureCollection"),
          ("features", .JArr [.JObj [], .JInt 3]), ("name", .JStr "demo")]) =
      some (correct_feature_collection unitEngineValid defaultCorrections
        [("type", .JStr "FeatureCollection"),
         ("features", .JArr [.JObj [], .JInt 3]), ("name", .JStr "demo")]
        [.JObj [], .JInt 3]) ∧
    (correct_feature_collection unitEngineValid defaultCorrections
        [("type", .JStr "FeatureCollection"),
         ("features", .JArr [.JObj [], .JInt 3]), ("name", .JStr "demo")]
        [.JObj [], .JInt 3]).2.corrected_feature_count = 2 ∧
    ("Error processing feature 1: int object has no attribute get") ∈
      (correct_feature_collection unitEngineValid defaultCorrections
        [("type", .JStr "FeatureCollection"),
         ("features", .JArr [.JObj [], .JInt 3]), ("name", .JStr "demo")]
        [.JObj [], .JInt 3]).2.errors := by
  have h := c1_feature_collection_isolation unitEngineValid defaultCorrections
    [("type", .JStr "FeatureCollection"),
     ("features", .JArr [.JObj [], .JInt 3]), ("name", .JStr "demo")]
    [.JObj [], .JInt 3] rfl rfl
  refine ⟨h.1, h.2.2.1, ?_⟩
  have h6 := (h.2.2.2.2.2 1 (by decide) "int object has no attribute get" rfl).2.1
  exact h6



/-- Filtering on a key predicate does not disturb the lookup of a key the
predicate keeps. -/
theorem objGet?_filter (kvs : List (String × JVal)) (p : String → Bool) (k : String)
    (hk : p k = true) :
    objGet? (kvs.filter fun kv => p kv.1) k = objGet? kvs k := by
  induction kvs with
  | nil => rfl
  | cons kv rest ih =>
    rw [List.filter_cons]
    by_cases hp : p kv.1 = true
    · rw [if_pos hp]
      simp only [objGet?, ih]
    · rw [if_neg hp]
      have he : ¬(kv.1 = k) := fun e => hp (e ▸ hk)
      simp only [objGet?, if_neg he, ih]

/-- C3: a successfully corrected feature is a dict whose `type` is
`"Feature"` and that preserves every input key other than `type`,
`properties` and `geometry` with its value unchanged; likewise the corrected
FeatureCollection document keeps `type = "FeatureCollection"`, holds the
corrected feature sequence under `features`, and preserves every top-level
input key other than `type` and `features` verbatim. -/
theorem c3_key_preservation {G : Type} (E : Engine G) (chain : List (String × PropRule)) :
    (∀ kvs idx out d, correct_feature E chain (.JObj kvs) idx = .ok (out, d) →
      ∃ okvs, out = .JObj okvs ∧ objGet? okvs "type" = some (.JStr "Feature") ∧
        ∀ k, k ≠ "type" → k ≠ "properties" → k ≠ "geometry" →
          objGet? okvs k = objGet? kvs k) ∧
    (∀ kvs fs out res, objGet kvs "type" = .JStr "FeatureCollection" →
      objGet? kvs "features" = some (.JArr fs) →
      correct_geojson E chain (.JObj kvs) = some (out, res) →
      ∃ okvs, out = .JObj okvs ∧ objGet? okvs "type" = some (.JStr "FeatureCollection") ∧
        objGet? okvs "features" = some (.JArr (correctFeaturesFrom E chain 0 fs).feats) ∧
        ∀ k, k ≠ "type" → k ≠ "features" → objGet? okvs k = objGet? kvs k) := by
  constructor
  · intro kvs idx out d h
    unfold correct_feature at h
    dsimp only at h
    split at h
    · exact absurd h (by simp)
    · injection h with h'
      injection h' with h1 h2
      refine ⟨_, h1.symm, rfl, ?_⟩
      intro k hk1 hk2 hk3
      simp only [objGet?, if_neg (Ne.symm hk1), if_neg (Ne.symm hk2), if_neg (Ne.symm hk3)]
      exact objGet?_filter kvs
        (fun s => s != "type" && s != "properties" && s != "geometry") k
        (by simp only [Bool.and_eq_true, bne_iff_ne]; exact ⟨⟨hk1, hk2⟩, hk3⟩)
  · intro kvs fs out res ht hf h
    have hd : correct_geojson E chain (.JObj kvs) =
        some (correct_feature_collection E chain kvs fs) := by
      simp [correct_geojson, ht, hf]
    rw [hd] at h
    injection h with h'
    have h1 : (correct_feature_collection E chain kvs fs).1 = out := congrArg Prod.fst h'
    refine ⟨("type", .JStr "FeatureCollection") ::
      ("features", .JArr (correctFeaturesFrom E chain 0 fs).feats) ::
      kvs.filter (fun kv => kv.1 != "type" && kv.1 != "features"), ?_, rfl, rfl, ?_⟩
    · rw [← h1]
      rfl
    · intro k hk1 hk2
      simp only [objGet?, if_neg (Ne.symm hk1), if_neg (Ne.symm hk2)]
      exact objGet?_filter kvs (fun s => s != "type" && s != "features") k
        (by simp only [Bool.and_eq_true, bne_iff_ne]; exact ⟨hk1, hk2⟩)

/-- Witness for C3 on a feature carrying `id` and `bbox` keys and a
collection carrying a `name` key. -/
theorem c3_key_preservation_witness :
    objGet? [("type", .JStr "Feature"), ("properties", .JNull), ("geometry", .JNull),
        ("id", .JInt 7), ("bbox", .JArr [])] "id" =
      objGet? [("type", .JStr "Feature"), ("id", .JInt 7), ("bbox", .JArr [])] "id" ∧
    objGet? [("type", .JStr "Feature"), ("properties", .JNull), ("geometry", .JNull),
        ("id", .JInt 7), ("bbox", .JArr [])] "bbox" =
      objGet? [("type", .JStr "Feature"), ("id", .JInt 7), ("bbox", .JArr [])] "bbox" := by
  obtain ⟨okvs, hout, hty, hpres⟩ :=
    (c3_key_preservation unitEngineValid defaultCorrections).1
      [("type", .JStr "Feature"), ("id", .JInt 7), ("bbox", .JArr [])] 0
      (.JObj [("type", .JStr "Feature"), ("properties", .JNull), ("geometry", .JNull),
        ("id", .JInt 7), ("bbox", .JArr [])])
      ⟨0, false, "", 0⟩ rfl
  injection hout with he
  subst he
  exact ⟨hpres "id" (by decide) (by decide) (by decide),
         hpres "bbox" (by decide) (by decide) (by decide)⟩



/-- Validation reads only `shape`, `is_valid` and `explain_validity` from the
engine. -/
theorem validate_geometry_ext {G : Type} (E E' : Engine G)
    (hsh : E'.shape = E.shape) (hv : E'.is_valid = E.is_valid)
    (hex : E'.explain_validity = E.explain_validity) (g : JVal) :
    validate_geometry E' g = validate_geometry E g := by
  unfold validate_geometry
  rw [hsh, hv, hex]

/-- The validation loop is engine-extensional in the three read-only
operations. -/
theorem validateLoop_ext {G : Type} (E E' : Engine G)
    (hsh : E'.shape = E.shape) (hv : E'.is_valid = E.is_valid)
    (hex : E'.explain_validity = E.explain_validity) :
    ∀ (fs : List JVal) (i : Nat), validateLoop E' i fs = validateLoop E i fs := by
  intro fs
  induction fs with
  | nil => intro i; rfl
  | cons f rest ih =>
    intro i
    simp only [validateLoop, validate_geometry_ext E E' hsh hv hex, ih]

/-- On a list of dict features the loop emits exactly the issues the amended
sentence predicts, in order. -/
theorem validateLoop_spec {G : Type} (E : Engine G) :
    ∀ (fs : List (List (String × JVal))) (i : Nat),
      validateLoop E i (fs.map JVal.JObj) = .ok (specIssuesFrom E i fs) := by
  intro fs
  induction fs with
  | nil => intro i; rfl
  | cons fkvs rest ih =>
    intro i
    simp only [List.map_cons, validateLoop, specIssuesFrom, specFeatureIssue, ih]

/-- C9 counterexample: a feature whose geometry is the empty dict — non-null,
and invalid according to `validate_geometry` — is skipped by the `if
geometry:` truthiness test, so no issue is emitted where the claim demands
one. -/
theorem c9_validate_truthy_counterexample :
    validate_geojson_file unitEngineShapeFails
        (.ok (.JObj [("type", .JStr "FeatureCollection"),
          ("features", .JArr [.JObj [("geometry", .JObj [])]])])) =
      some (.ok []) ∧
    objGet [("geometry", .JObj [])] "geometry" ≠ .JNull ∧
    (validate_geometry unitEngineShapeFails
      (objGet [("geometry", .JObj [])] "geometry")).1 = false :=
  ⟨rfl, fun h => JVal.noConfusion h, rfl⟩

/-- C9 amended: for every parseable document, validation emits one
`geometry_invalid` issue per feature whose geometry is truthy (non-null and
non-empty under Python truthiness) and reports invalid, at that feature's
index; a JSON parse failure yields exactly one `json_error` issue; and the
whole pass never invokes the engine's repair operations (`make_valid`,
`mapping`): its outcome depends only on `shape`, `is_valid` and
`explain_validity`. -/
theorem c9_validate_amended {G : Type} (E E' : Engine G)
    (hsh : E'.shape = E.shape) (hv : E'.is_valid = E.is_valid)
    (hex : E'.explain_validity = E.explain_validity) :
    (∀ e, validate_geojson_file E (.error e) = some (.ok [.json_error e])) ∧
    (∀ kvs (fs : List (List (String × JVal))),
      objGet kvs "type" = .JStr "FeatureCollection" →
      objGet? kvs "features" = some (.JArr (fs.map JVal.JObj)) →
      validate_geojson_file E (.ok (.JObj kvs)) = some (.ok (specIssuesFrom E 0 fs))) ∧
    (∀ kvs, objGet kvs "type" = .JStr "Feature" →
      validate_geojson_file E (.ok (.JObj kvs)) = some (.ok (specFeatureIssue E 0 kvs))) ∧
    (∀ kvs t, objGet kvs "type" = .JStr t → t ∈ geometryTypeNames →
      validate_geojson_file E (.ok (.JObj kvs)) =
        some (.ok (if (validate_geometry E (.JObj kvs)).1 then []
          else [.geometry_invalid 0 (validate_geometry E (.JObj kvs)).2]))) ∧
    (∀ parse, validate_geojson_file E' parse = validate_geojson_file E parse) := by
  refine ⟨fun e => rfl, ?_, ?_, ?_, ?_⟩
  · intro kvs fs ht hf
    simp [validate_geojson_file, validate_geojson, ht, hf, validateLoop_spec E fs 0]
  · intro kvs ht
    simp [validate_geojson_file, validate_geojson, ht, specFeatureIssue]
  · intro kvs t ht hmem
    have h1 : t ≠ "FeatureCollection" := by
      rintro rfl
      revert hmem
      decide
    have h2 : t ≠ "Feature" := by
      rintro rfl
      revert hmem
      decide
    simp [validate_geojson_file, validate_geojson, ht, h1, h2, hmem]
  · intro parse
    cases parse with
    | error e => rfl
    | ok doc =>
      cases doc
      case JObj kvs =>
        simp only [validate_geojson_file, validate_geojson]
        cases ht : objGet kvs "type"
        case JStr t =>
          dsimp only
          by_cases h1 : t = "FeatureCollection"
          · rw [if_pos h1, if_pos h1]
            cases hf : objGet? kvs "features" with
            | none => rfl
            | some fv =>
              cases fv with
              | JArr fs =>
                dsimp only
                rw [validateLoop_ext E E' hsh hv hex fs 0]
              | JNull => rfl
              | JBool b => rfl
              | JInt n => rfl
              | JFloat q => rfl
              | JStr s => rfl
              | JObj kvs2 => rfl
          · rw [if_neg h1, if_neg h1]
            by_cases h2 : t = "Feature"
            · rw [if_pos h2, if_pos h2,
                validate_geometry_ext E E' hsh hv hex (objGet kvs "geometry")]
            · rw [if_neg h2, if_neg h2]
              by_cases h3 : t ∈ geometryTypeNames
              · rw [if_pos h3, if_pos h3,
                  validate_geometry_ext E E' hsh hv hex (.JObj kvs)]
              · rw [if_neg h3, if_neg h3]
        all_goals rfl
      all_goals rfl

/-- Witness for C9 amended: a parse error and a one-feature collection with a
truthy geometry on a construction-failing engine. -/
theorem c9_validate_amended_witness :
    validate_geojson_file unitEngineShapeFails (.error "Expecting value") =
      some (.ok [.json_error "Expecting value"]) ∧
    validate_geojson_file unitEngineShapeFails
        (.ok (.JObj [("type", .JStr "FeatureCollection"),
          ("features", .JArr [.JObj [("geometry", .JObj [("type", .JStr "Point")])]])])) =
      some (.ok (specIssuesFrom unitEngineShapeFails 0
        [[("geometry", .JObj [("type", .JStr "Point")])]])) := by
  have h := c9_validate_amended unitEngineShapeFails unitEngineShapeFails rfl rfl rfl
  exact ⟨h.1 "Expecting value",
    h.2.1 _ [[("geometry", .JObj [("type", .JStr "Point")])]] rfl rfl⟩


end GeoJSONCorrector
